import Mathlib

/-!
Verification of the Slalom Capabilities Management API (src/src/app.py).

The application state (users, capabilities, audit log) is embedded as explicit
Lean data; the FastAPI handlers become pure functions from inputs and a state
to an `Except HTTPError` result paired with the successor state.  The external
libraries (passlib bcrypt, python-jose JWT) are not part of the repository and
are modelled from the specification, as noted on each such definition.
-/

namespace Slalom

/-- A user record, as stored in the in-memory `users` dictionary. -/
structure User where
  email : String
  hashed_password : String
  role : String
  name : String
deriving Repr, DecidableEq

/-- A capability record, as stored in the in-memory `capabilities` dictionary
(the dictionary key, the capability name, is kept outside the record, as in
the Python dict). -/
structure Capability where
  description : String
  practice_area : String
  skill_levels : List String
  certifications : List String
  industry_verticals : List String
  capacity : Nat
  consultants : List String
deriving Repr, DecidableEq

/-- An audit log entry (Pydantic model `AuditLog`). -/
structure AuditLog where
  timestamp : String
  action : String
  user : String
  details : String
deriving Repr, DecidableEq

/-- An `HTTPException` raised by a handler: status code and detail message. -/
structure HTTPError where
  status_code : Nat
  detail : String
deriving Repr, DecidableEq

/-- The mutable application state: the `capabilities` dictionary (an ordered
association list keyed by capability name, like the Python dict) and the
`audit_logs` list.  The `users` dictionary is never mutated and stays a
top-level constant. -/
structure AppState where
  capabilities : List (String × Capability)
  audit_logs : List AuditLog
deriving Repr, DecidableEq

/-- `SECRET_KEY` from app.py. -/
def SECRET_KEY : String := "slalom-capabilities-secret-key-change-in-production"

/-- `ACCESS_TOKEN_EXPIRE_MINUTES` from app.py (8 hours). -/
def ACCESS_TOKEN_EXPIRE_MINUTES : Nat := 480

/-- The shared bcrypt hash of `password123` used by all seed users. -/
def PASSWORD_HASH : String :=
  "$2b$12$tmRSPV/3aRDym4jvbbpBx.UVsgbaXJ4JydrlBieNEWu0VOzjnGusK"

/-- The seed user `alice.smith@slalom.com` (admin). -/
def alice : User :=
  ⟨"alice.smith@slalom.com", PASSWORD_HASH, "admin", "Alice Smith"⟩

/-- The seed user `bob.johnson@slalom.com` (consultant). -/
def bob : User :=
  ⟨"bob.johnson@slalom.com", PASSWORD_HASH, "consultant", "Bob Johnson"⟩

/-- The seed user `emma.davis@slalom.com` (consultant). -/
def emma : User :=
  ⟨"emma.davis@slalom.com", PASSWORD_HASH, "consultant", "Emma Davis"⟩

/-- The in-memory `users` dictionary from app.py, as an association list
keyed by email. -/
def users : List (String × User) :=
  [("alice.smith@slalom.com", alice),
   ("bob.johnson@slalom.com", bob),
   ("emma.davis@slalom.com", emma)]

/-- The seed `Cloud Architecture` capability record. -/
def cloudArchitecture : Capability :=
  ⟨"Design and implement scalable cloud solutions using AWS, Azure, and GCP",
   "Technology",
   ["Emerging", "Proficient", "Advanced", "Expert"],
   ["AWS Solutions Architect", "Azure Architect Expert"],
   ["Healthcare", "Financial Services", "Retail"],
   40,
   ["alice.smith@slalom.com", "bob.johnson@slalom.com"]⟩

/-- The seed `capabilities` dictionary from app.py, as an ordered association
list keyed by capability name. -/
def seedCapabilities : List (String × Capability) :=
  [("Cloud Architecture", cloudArchitecture),
   ("Data Analytics",
    ⟨"Advanced data analysis, visualization, and machine learning solutions",
     "Technology",
     ["Emerging", "Proficient", "Advanced", "Expert"],
     ["Tableau Desktop Specialist", "Power BI Expert", "Google Analytics"],
     ["Retail", "Healthcare", "Manufacturing"],
     35,
     ["emma.davis@slalom.com", "sophia.wilson@slalom.com"]⟩),
   ("DevOps Engineering",
    ⟨"CI/CD pipeline design, infrastructure automation, and containerization",
     "Technology",
     ["Emerging", "Proficient", "Advanced", "Expert"],
     ["Docker Certified Associate", "Kubernetes Admin", "Jenkins Certified"],
     ["Technology", "Financial Services"],
     30,
     ["john.brown@slalom.com", "olivia.taylor@slalom.com"]⟩),
   ("Digital Strategy",
    ⟨"Digital transformation planning and strategic technology roadmaps",
     "Strategy",
     ["Emerging", "Proficient", "Advanced", "Expert"],
     ["Digital Transformation Certificate", "Agile Certified Practitioner"],
     ["Healthcare", "Financial Services", "Government"],
     25,
     ["liam.anderson@slalom.com", "noah.martinez@slalom.com"]⟩),
   ("Change Management",
    ⟨"Organizational change leadership and adoption strategies",
     "Operations",
     ["Emerging", "Proficient", "Advanced", "Expert"],
     ["Prosci Certified", "Lean Six Sigma Black Belt"],
     ["Healthcare", "Manufacturing", "Government"],
     20,
     ["ava.garcia@slalom.com", "mia.rodriguez@slalom.com"]⟩),
   ("UX/UI Design",
    ⟨"User experience design and digital product innovation",
     "Technology",
     ["Emerging", "Proficient", "Advanced", "Expert"],
     ["Adobe Certified Expert", "Google UX Design Certificate"],
     ["Retail", "Healthcare", "Technology"],
     30,
     ["amelia.lee@slalom.com", "harper.white@slalom.com"]⟩),
   ("Cybersecurity",
    ⟨"Information security strategy, risk assessment, and compliance",
     "Technology",
     ["Emerging", "Proficient", "Advanced", "Expert"],
     ["CISSP", "CISM", "CompTIA Security+"],
     ["Financial Services", "Healthcare", "Government"],
     25,
     ["ella.clark@slalom.com", "scarlett.lewis@slalom.com"]⟩),
   ("Business Intelligence",
    ⟨"Enterprise reporting, data warehousing, and business analytics",
     "Technology",
     ["Emerging", "Proficient", "Advanced", "Expert"],
     ["Microsoft BI Certification", "Qlik Sense Certified"],
     ["Retail", "Manufacturing", "Financial Services"],
     35,
     ["james.walker@slalom.com", "benjamin.hall@slalom.com"]⟩),
   ("Agile Coaching",
    ⟨"Agile transformation and team coaching for scaled delivery",
     "Operations",
     ["Emerging", "Proficient", "Advanced", "Expert"],
     ["Certified Scrum Master", "SAFe Agilist", "ICAgile Certified"],
     ["Technology", "Financial Services", "Healthcare"],
     20,
     ["charlotte.young@slalom.com", "henry.king@slalom.com"]⟩)]

/-- The state at process start: the seed capabilities and an empty audit log. -/
def initialState : AppState := ⟨seedCapabilities, []⟩

/-- Modelled from the spec: the Password Verifier (the external passlib bcrypt
context, not part of src).  `verify(plaintext, hash)` succeeds exactly when
the plaintext is the preimage of the stored hash; all seed users store the
bcrypt hash of `password123`, so the model accepts exactly that pair. -/
def verify_password (plain_password hashed_password : String) : Bool :=
  hashed_password == PASSWORD_HASH && plain_password == "password123"

/-- A JWT payload: the `sub` claim (optional, as `payload.get` may find none)
and the `exp` claim as an absolute timestamp in seconds. -/
structure JwtPayload where
  sub : Option String
  exp : Nat
deriving Repr, DecidableEq

/-- Modelled from the spec: a token produced by the external jose JWT library
(not part of src).  A well-formed token is a payload signed under a key; any
other presented bearer string is malformed. -/
inductive Jwt where
  | signed (payload : JwtPayload) (key : String)
  | malformed (raw : String)
deriving Repr, DecidableEq

/-- Modelled from the spec: `jwt.encode` signs the payload with the key. -/
def jwtEncode (payload : JwtPayload) (key : String) : Jwt :=
  .signed payload key

/-- Modelled from the spec: `jwt.decode` returns the payload when the
signature verifies under `key` and the current time is before the `exp`
claim; it rejects (raises `JWTError`, here `none`) a malformed token, a
signature mismatch, or an expiry in the past. -/
def jwtDecode (tok : Jwt) (key : String) (now : Nat) : Option JwtPayload :=
  match tok with
  | .malformed _ => none
  | .signed payload k =>
      if k = key then (if now < payload.exp then some payload else none)
      else none

/-- `create_access_token`: encodes `sub` with expiry `now` plus the fixed
session lifetime, signed with `SECRET_KEY`.  The handler always passes
`data = ⁅sub: email⁆`, embedded here as the `sub` string itself. -/
def create_access_token (sub : String) (now : Nat) : Jwt :=
  jwtEncode ⟨some sub, now + ACCESS_TOKEN_EXPIRE_MINUTES * 60⟩ SECRET_KEY

/-- The 401 `credentials_exception` of `get_current_user`. -/
def credentials_exception : HTTPError :=
  ⟨401, "Could not validate credentials"⟩

/-- `get_current_user`: decodes the bearer token; on any `JWTError`, a missing
`sub` claim, or a subject not in `users`, answers the 401
`credentials_exception`; otherwise returns the user record. -/
def get_current_user (tok : Jwt) (now : Nat) : Except HTTPError User :=
  match jwtDecode tok SECRET_KEY now with
  | none => .error credentials_exception
  | some payload =>
      match payload.sub with
      | none => .error credentials_exception
      | some email =>
          match users.lookup email with
          | none => .error credentials_exception
          | some u => .ok u

/-- `require_admin`: passes the user through if their role is `admin`,
otherwise raises 403. -/
def require_admin (current_user : User) : Except HTTPError User :=
  if current_user.role ≠ "admin" then
    .error ⟨403, "Admin privileges required"⟩
  else .ok current_user

/-- `log_action`: appends one audit entry to `audit_logs`; `ts` stands for
`datetime.utcnow().isoformat()`. -/
def log_action (action user details : String) (st : AppState) (ts : String) :
    AppState :=
  { st with audit_logs := st.audit_logs ++ [⟨ts, action, user, details⟩] }

/-- The successful login response: token, token type and the user fields
echoed back. -/
structure TokenResponse where
  access_token : Jwt
  token_type : String
  user_email : String
  user_name : String
  user_role : String
deriving Repr, DecidableEq

/-- `login` (`POST /auth/login`): looks the email up in `users`, verifies the
password, and on success issues a token, logs a `login` audit entry and
returns the token response; on an unknown email or a wrong password it raises
the same 401. -/
def login (email password : String) (st : AppState) (now : Nat) (ts : String) :
    Except HTTPError (TokenResponse × AppState) :=
  match users.lookup email with
  | none => .error ⟨401, "Incorrect email or password"⟩
  | some user =>
      if verify_password password user.hashed_password then
        .ok (⟨create_access_token user.email now, "bearer",
              user.email, user.name, user.role⟩,
             log_action "login" user.email "User logged in" st ts)
      else .error ⟨401, "Incorrect email or password"⟩

/-- Replaces the value stored under `name` in the capabilities dictionary
(in-place mutation of `capabilities[name]` in the Python dict). -/
def updateCap (caps : List (String × Capability)) (name : String)
    (c : Capability) : List (String × Capability) :=
  caps.map (fun p => if p.1 = name then (p.1, c) else p)

/-- `register_for_capability` (`POST /capabilities/.../register`), for an
already authenticated `current_user`: 404 if the capability is unknown, 403
if a non-admin targets someone else, 400 if the target is already registered,
otherwise appends the target to the roster and logs a `register` entry. -/
def register_for_capability (capability_name targetEmail : String)
    (current_user : User) (st : AppState) (ts : String) :
    Except HTTPError (String × AppState) :=
  match st.capabilities.lookup capability_name with
  | none => .error ⟨404, "Capability not found"⟩
  | some capability =>
      if current_user.role ≠ "admin" ∧ targetEmail ≠ current_user.email then
        .error ⟨403, "You can only register yourself. Admins can register others."⟩
      else if targetEmail ∈ capability.consultants then
        .error ⟨400, "Consultant is already registered for this capability"⟩
      else
        let capability' : Capability :=
          { capability with consultants := capability.consultants ++ [targetEmail] }
        let st' : AppState :=
          { st with capabilities := updateCap st.capabilities capability_name capability' }
        .ok ("Registered " ++ targetEmail ++ " for " ++ capability_name,
             log_action "register" current_user.email
               ("Registered " ++ targetEmail ++ " for " ++ capability_name) st' ts)

/-- `unregister_from_capability` handler body (`DELETE
/capabilities/.../unregister`), after the `require_admin` dependency has
admitted `current_user`: 404 if the capability is unknown, 400 if the target
is not registered, otherwise removes the first occurrence of the target from
the roster (`list.remove`) and logs an `unregister` entry. -/
def unregister_from_capability (capability_name targetEmail : String)
    (current_user : User) (st : AppState) (ts : String) :
    Except HTTPError (String × AppState) :=
  match st.capabilities.lookup capability_name with
  | none => .error ⟨404, "Capability not found"⟩
  | some capability =>
      if targetEmail ∉ capability.consultants then
        .error ⟨400, "Consultant is not registered for this capability"⟩
      else
        let capability' : Capability :=
          { capability with consultants := capability.consultants.erase targetEmail }
        let st' : AppState :=
          { st with capabilities := updateCap st.capabilities capability_name capability' }
        .ok ("Unregistered " ++ targetEmail ++ " from " ++ capability_name,
             log_action "unregister" current_user.email
               ("Unregistered " ++ targetEmail ++ " from " ++ capability_name) st' ts)

/-- The full unregister endpoint: the `require_admin` dependency gate followed
by the handler body. -/
def unregisterEndpoint (capability_name targetEmail : String)
    (current_user : User) (st : AppState) (ts : String) :
    Except HTTPError (String × AppState) :=
  match require_admin current_user with
  | .error e => .error e
  | .ok u => unregister_from_capability capability_name targetEmail u st ts

/-- `get_audit_logs` (`GET /audit/logs`): admin-gated, returns the audit log
list as stored. -/
def get_audit_logs (current_user : User) (st : AppState) :
    Except HTTPError (List AuditLog) :=
  match require_admin current_user with
  | .error e => .error e
  | .ok _ => .ok st.audit_logs

/-- `get_capabilities` (`GET /capabilities`): unauthenticated read of the
capabilities dictionary. -/
def get_capabilities (st : AppState) : List (String × Capability) :=
  st.capabilities

/-- The state after a login request: a raised `HTTPException` leaves the
store untouched. -/
def loginStep (email password : String) (st : AppState) (now : Nat)
    (ts : String) : AppState :=
  match login email password st now ts with
  | .ok (_, st') => st'
  | .error _ => st

/-- The state after a register request. -/
def registerStep (capability_name targetEmail : String) (current_user : User)
    (st : AppState) (ts : String) : AppState :=
  match register_for_capability capability_name targetEmail current_user st ts with
  | .ok (_, st') => st'
  | .error _ => st

/-- The state after an unregister request. -/
def unregisterStep (capability_name targetEmail : String) (current_user : User)
    (st : AppState) (ts : String) : AppState :=
  match unregisterEndpoint capability_name targetEmail current_user st ts with
  | .ok (_, st') => st'
  | .error _ => st

/-- Every capability roster in the state is free of duplicate emails. -/
def consultantsNodup (st : AppState) : Prop :=
  ∀ p ∈ st.capabilities, p.2.consultants.Nodup

/-! ### Helper lemmas about association-list lookup -/

theorem lookup_mem {β : Type} {l : List (String × β)} {k : String} {v : β}
    (h : l.lookup k = some v) : (k, v) ∈ l := by
  induction l with
  | nil => simp at h
  | cons p rest ih =>
      obtain ⟨k', v'⟩ := p
      rw [List.lookup_cons] at h
      cases hbeq : k == k' with
      | true =>
          rw [hbeq] at h
          have hk : k = k' := by simpa using hbeq
          simp only [Option.some.injEq] at h
          subst hk
          subst h
          exact List.mem_cons_self _ _
      | false =>
          rw [hbeq] at h
          exact List.mem_cons_of_mem _ (ih h)

theorem lookup_updateCap {caps : List (String × Capability)} {name : String}
    {cap : Capability} (c : Capability) (h : caps.lookup name = some cap) :
    (updateCap caps name c).lookup name = some c := by
  induction caps with
  | nil => simp at h
  | cons p rest ih =>
      obtain ⟨k', v'⟩ := p
      rw [List.lookup_cons] at h
      simp only [updateCap, List.map_cons]
      cases hbeq : name == k' with
      | true =>
          have hk : name = k' := by simpa using hbeq
          subst hk
          simp [List.lookup_cons]
      | false =>
          rw [hbeq] at h
          have hk : ¬ name = k' := by simpa using hbeq
          have hne : ¬ k' = name := fun e => hk e.symm
          simp only [hne, if_false]
          rw [List.lookup_cons, hbeq]
          exact ih h

/-! ### Claim C1 -/

/-- Claim C1: for every register call, a nonexistent capability gives NotFound
(404) regardless of the acting user's role; with an existing capability, a
non-admin targeting a different email gives Forbidden (403) even when the
target is already in the roster; otherwise a target already in the roster
gives Conflict (400) — the checks apply in exactly that order. -/
theorem C1_register_error_precedence (capName targetEmail : String) (u : User)
    (st : AppState) (ts : String) :
    (st.capabilities.lookup capName = none →
      register_for_capability capName targetEmail u st ts =
        .error ⟨404, "Capability not found"⟩) ∧
    (∀ cap, st.capabilities.lookup capName = some cap →
      u.role ≠ "admin" → targetEmail ≠ u.email →
      register_for_capability capName targetEmail u st ts =
        .error ⟨403, "You can only register yourself. Admins can register others."⟩) ∧
    (∀ cap, st.capabilities.lookup capName = some cap →
      (u.role = "admin" ∨ targetEmail = u.email) →
      targetEmail ∈ cap.consultants →
      register_for_capability capName targetEmail u st ts =
        .error ⟨400, "Consultant is already registered for this capability"⟩) := by
  refine ⟨?_, ?_, ?_⟩
  · intro h
    simp [register_for_capability, h]
  · intro cap hc hr he
    simp [register_for_capability, hc, hr, he]
  · intro cap hc hperm hmem
    rcases hperm with h | h
    · simp [register_for_capability, hc, h, hmem]
    · subst h
      simp [register_for_capability, hc, hmem]

/-- Witness for C1 at a concrete input: registering into the nonexistent
capability `Quantum Computing` as the consultant Bob answers 404. -/
theorem C1_register_error_precedence_witness :
    register_for_capability "Quantum Computing" "bob.johnson@slalom.com" bob
      initialState "t" = .error ⟨404, "Capability not found"⟩ :=
  (C1_register_error_precedence "Quantum Computing" "bob.johnson@slalom.com" bob
      initialState "t").1 (by decide)

/-! ### Claim C5 -/

/-- Claim C5: authentication answers the 401 credentials exception for a
malformed token, a wrong-key signature, an expired token, a missing subject
claim, or a verified subject absent from the user store, and otherwise
returns the stored user record. -/
theorem C5_get_current_user_cases (now : Nat) :
    (∀ raw, get_current_user (.malformed raw) now = .error credentials_exception) ∧
    (∀ p k, k ≠ SECRET_KEY →
      get_current_user (.signed p k) now = .error credentials_exception) ∧
    (∀ p, p.exp ≤ now →
      get_current_user (.signed p SECRET_KEY) now = .error credentials_exception) ∧
    (∀ p, now < p.exp → p.sub = none →
      get_current_user (.signed p SECRET_KEY) now = .error credentials_exception) ∧
    (∀ p e, now < p.exp → p.sub = some e → users.lookup e = none →
      get_current_user (.signed p SECRET_KEY) now = .error credentials_exception) ∧
    (∀ p e u, now < p.exp → p.sub = some e → users.lookup e = some u →
      get_current_user (.signed p SECRET_KEY) now = .ok u) := by
  refine ⟨?_, ?_, ?_, ?_, ?_, ?_⟩
  · intro raw; simp [get_current_user, jwtDecode]
  · intro p k hk; simp [get_current_user, jwtDecode, hk]
  · intro p hexp; simp [get_current_user, jwtDecode, Nat.not_lt.mpr hexp]
  · intro p h hs; simp [get_current_user, jwtDecode, h, hs]
  · intro p e h hs hl; simp [get_current_user, jwtDecode, h, hs, hl]
  · intro p e u h hs hl; simp [get_current_user, jwtDecode, h, hs, hl]

/-- Witness for C5 at a concrete input: a token signed under a key other than
the process secret is rejected with the credentials exception. -/
theorem C5_get_current_user_cases_witness :
    get_current_user (.signed ⟨some "alice.smith@slalom.com", 100⟩ "wrong-key") 0 =
      .error credentials_exception :=
  ((C5_get_current_user_cases 0).2.1)
    ⟨some "alice.smith@slalom.com", 100⟩ "wrong-key" (by decide)

/-! ### Claim C2 -/

/-- Claim C2: a register call on an existing capability by an admin or by the
target themself, with the target not yet on the roster, succeeds; the target
is appended to that capability's roster (visible to a subsequent lookup) and
exactly one `register` audit entry is appended, with the acting user as actor
and details naming target and capability. -/
theorem C2_register_success (capName targetEmail : String) (u : User)
    (st : AppState) (ts : String) (cap : Capability)
    (hc : st.capabilities.lookup capName = some cap)
    (hperm : u.role = "admin" ∨ targetEmail = u.email)
    (hmem : targetEmail ∉ cap.consultants) :
    ∃ st',
      register_for_capability capName targetEmail u st ts =
        .ok ("Registered " ++ targetEmail ++ " for " ++ capName, st') ∧
      st'.capabilities.lookup capName =
        some { cap with consultants := cap.consultants ++ [targetEmail] } ∧
      (∃ cap', st'.capabilities.lookup capName = some cap' ∧
        targetEmail ∈ cap'.consultants) ∧
      st'.audit_logs = st.audit_logs ++
        [⟨ts, "register", u.email,
          "Registered " ++ targetEmail ++ " for " ++ capName⟩] := by
  have hcond : ¬(u.role ≠ "admin" ∧ targetEmail ≠ u.email) := by
    rcases hperm with h | h
    · exact fun hx => hx.1 h
    · exact fun hx => hx.2 h
  refine ⟨⟨updateCap st.capabilities capName
      { cap with consultants := cap.consultants ++ [targetEmail] },
      st.audit_logs ++ [⟨ts, "register", u.email,
        "Registered " ++ targetEmail ++ " for " ++ capName⟩]⟩, ?_, ?_, ?_, ?_⟩
  · simp [register_for_capability, hc, hcond, hmem, log_action]
  · exact lookup_updateCap _ hc
  · exact ⟨_, lookup_updateCap _ hc, by simp⟩
  · rfl

/-- Witness for C2 at a concrete input: Emma registers herself for
`Cloud Architecture`, landing on its roster with one `register` audit
entry appended. -/
theorem C2_register_success_witness :
    ∃ st',
      register_for_capability "Cloud Architecture" "emma.davis@slalom.com" emma
        initialState "t" =
        .ok ("Registered " ++ "emma.davis@slalom.com" ++ " for " ++
          "Cloud Architecture", st') ∧
      st'.capabilities.lookup "Cloud Architecture" =
        some { cloudArchitecture with consultants :=
          cloudArchitecture.consultants ++ ["emma.davis@slalom.com"] } ∧
      (∃ cap', st'.capabilities.lookup "Cloud Architecture" = some cap' ∧
        "emma.davis@slalom.com" ∈ cap'.consultants) ∧
      st'.audit_logs = initialState.audit_logs ++
        [⟨"t", "register", emma.email,
          "Registered " ++ "emma.davis@slalom.com" ++ " for " ++
            "Cloud Architecture"⟩] :=
  C2_register_success "Cloud Architecture" "emma.davis@slalom.com" emma
    initialState "t" cloudArchitecture (by decide) (.inr (by decide)) (by decide)

/-! ### Claim C3 -/

/-- Claim C3: an unregister call that passed the admin gate answers 404 for an
unknown capability and Conflict (400) for a target not on the roster;
otherwise it removes the target from the roster (the target is no longer on
the roster read back, the roster being duplicate-free) and appends exactly one
`unregister` audit entry with the acting admin as actor. -/
theorem C3_unregister_admin (capName targetEmail : String) (u : User)
    (st : AppState) (ts : String) (hadmin : u.role = "admin") :
    (st.capabilities.lookup capName = none →
      unregisterEndpoint capName targetEmail u st ts =
        .error ⟨404, "Capability not found"⟩) ∧
    (∀ cap, st.capabilities.lookup capName = some cap →
      targetEmail ∉ cap.consultants →
      unregisterEndpoint capName targetEmail u st ts =
        .error ⟨400, "Consultant is not registered for this capability"⟩) ∧
    (∀ cap, st.capabilities.lookup capName = some cap →
      targetEmail ∈ cap.consultants → cap.consultants.Nodup →
      ∃ st',
        unregisterEndpoint capName targetEmail u st ts =
          .ok ("Unregistered " ++ targetEmail ++ " from " ++ capName, st') ∧
        st'.capabilities.lookup capName =
          some { cap with consultants := cap.consultants.erase targetEmail } ∧
        (∀ cap', st'.capabilities.lookup capName = some cap' →
          targetEmail ∉ cap'.consultants) ∧
        st'.audit_logs = st.audit_logs ++
          [⟨ts, "unregister", u.email,
            "Unregistered " ++ targetEmail ++ " from " ++ capName⟩]) := by
  refine ⟨?_, ?_, ?_⟩
  · intro h
    simp [unregisterEndpoint, require_admin, hadmin, unregister_from_capability, h]
  · intro cap hc hmem
    simp [unregisterEndpoint, require_admin, hadmin, unregister_from_capability,
      hc, hmem]
  · intro cap hc hmem hnd
    refine ⟨⟨updateCap st.capabilities capName
        { cap with consultants := cap.consultants.erase targetEmail },
        st.audit_logs ++ [⟨ts, "unregister", u.email,
          "Unregistered " ++ targetEmail ++ " from " ++ capName⟩]⟩,
      ?_, ?_, ?_, ?_⟩
    · simp [unregisterEndpoint, require_admin, hadmin, unregister_from_capability,
        hc, hmem, log_action]
    · exact lookup_updateCap _ hc
    · intro cap' hline
      rw [lookup_updateCap _ hc] at hline
      cases hline
      exact hnd.not_mem_erase
    · rfl

/-- Witness for C3 at the example of the claim: the admin Alice unregisters
Bob from `Cloud Architecture`, where he is initially present; the roster
read back no longer holds his email and one `unregister` entry with actor
Alice is appended. -/
theorem C3_unregister_admin_witness :
    ∃ st',
      unregisterEndpoint "Cloud Architecture" "bob.johnson@slalom.com" alice
        initialState "t" =
        .ok ("Unregistered " ++ "bob.johnson@slalom.com" ++ " from " ++
          "Cloud Architecture", st') ∧
      st'.capabilities.lookup "Cloud Architecture" =
        some { cloudArchitecture with consultants :=
          cloudArchitecture.consultants.erase "bob.johnson@slalom.com" } ∧
      (∀ cap', st'.capabilities.lookup "Cloud Architecture" = some cap' →
        "bob.johnson@slalom.com" ∉ cap'.consultants) ∧
      st'.audit_logs = initialState.audit_logs ++
        [⟨"t", "unregister", alice.email,
          "Unregistered " ++ "bob.johnson@slalom.com" ++ " from " ++
            "Cloud Architecture"⟩] :=
  (C3_unregister_admin "Cloud Architecture" "bob.johnson@slalom.com" alice
      initialState "t" (by decide)).2.2 cloudArchitecture
    (by decide) (by decide) (by decide)

/-- In the seed `users` dictionary every record's email field equals its
key. -/
theorem users_lookup_email {k : String} {u : User}
    (h : users.lookup k = some u) : u.email = k := by
  have hm := lookup_mem h
  simp [users] at hm
  rcases hm with ⟨hk, hu⟩ | ⟨hk, hu⟩ | ⟨hk, hu⟩ <;> subst hk <;> subst hu <;> rfl

/-! ### Claim C4 -/

/-- Claim C4: a token issued for a seed user, verified before its 8-hour
expiry, resolves to that user; verified once the expiry has passed, it is
rejected; and the token returned by any successful login for that user
likewise resolves to the user before expiry. -/
theorem C4_token_roundtrip (email : String) (u : User)
    (hu : users.lookup email = some u) (t0 t : Nat) :
    (t < t0 + ACCESS_TOKEN_EXPIRE_MINUTES * 60 →
      get_current_user (create_access_token email t0) t = .ok u) ∧
    (t0 + ACCESS_TOKEN_EXPIRE_MINUTES * 60 ≤ t →
      get_current_user (create_access_token email t0) t =
        .error credentials_exception) ∧
    (∀ pw st now ts resp st', login email pw st now ts = .ok (resp, st') →
      ∀ t2, t2 < now + ACCESS_TOKEN_EXPIRE_MINUTES * 60 →
        get_current_user resp.access_token t2 = .ok u) := by
  refine ⟨?_, ?_, ?_⟩
  · intro ht
    simp [get_current_user, create_access_token, jwtEncode, jwtDecode, ht, hu]
  · intro ht
    simp [get_current_user, create_access_token, jwtEncode, jwtDecode,
      Nat.not_lt.mpr ht]
  · intro pw st now ts resp st' hl t2 ht2
    simp only [login, hu] at hl
    by_cases hv : verify_password pw u.hashed_password
    · rw [if_pos hv] at hl
      simp only [Except.ok.injEq, Prod.mk.injEq] at hl
      obtain ⟨h1, -⟩ := hl
      subst h1
      have he : u.email = email := users_lookup_email hu
      simp [get_current_user, create_access_token, jwtEncode, jwtDecode,
        ht2, he, hu]
    · rw [if_neg hv] at hl
      exact absurd hl (by simp)

/-- Witness for C4 at a concrete input: a token issued for Alice at time 0,
verified at time 100, resolves to her record. -/
theorem C4_token_roundtrip_witness :
    get_current_user (create_access_token "alice.smith@slalom.com" 0) 100 =
      .ok alice :=
  (C4_token_roundtrip "alice.smith@slalom.com" alice (by decide) 0 100).1
    (by decide)

/-! ### Claim C7 -/

/-- Claim C7: a login with a seed email and the matching password succeeds,
returning the issued token, token type `bearer` and the user's email, name
and role, and appending one `login` audit entry whose actor is that user's
own email; any other pair fails with the 401 error. -/
theorem C7_login (email pw : String) (st : AppState) (now : Nat) (ts : String) :
    (∀ u, users.lookup email = some u →
      verify_password pw u.hashed_password = true →
      login email pw st now ts =
        .ok (⟨create_access_token u.email now, "bearer", u.email, u.name, u.role⟩,
          { st with audit_logs := st.audit_logs ++
            [⟨ts, "login", u.email, "User logged in"⟩] })) ∧
    (users.lookup email = none →
      login email pw st now ts = .error ⟨401, "Incorrect email or password"⟩) ∧
    (∀ u, users.lookup email = some u →
      verify_password pw u.hashed_password = false →
      login email pw st now ts = .error ⟨401, "Incorrect email or password"⟩) := by
  refine ⟨?_, ?_, ?_⟩
  · intro u hu hv; simp [login, hu, hv, log_action]
  · intro h; simp [login, h]
  · intro u hu hv; simp [login, hu, hv]

/-- Witness for C7 at a concrete input: Alice logs in with the seed password
and receives the bearer token and her profile, with one `login` audit entry
appended. -/
theorem C7_login_witness :
    login "alice.smith@slalom.com" "password123" initialState 0 "t" =
      .ok (⟨create_access_token alice.email 0, "bearer", alice.email, alice.name,
        alice.role⟩,
        { initialState with audit_logs := initialState.audit_logs ++
          [⟨"t", "login", alice.email, "User logged in"⟩] }) :=
  (C7_login "alice.smith@slalom.com" "password123" initialState 0 "t").1 alice
    (by decide) (by decide)

/-! ### Claim C10 -/

/-- Claim C10: a failed login is uniform and atomic — an unknown email and a
known email with a wrong password answer the identical 401 error with detail
`Incorrect email or password`, and any failed login leaves the state (audit
log and capability rosters; the user store is a constant of the embedding)
unchanged. -/
theorem C10_failed_login_uniform_atomic (st : AppState) (now : Nat)
    (ts : String) :
    (∀ email pw, users.lookup email = none →
      login email pw st now ts = .error ⟨401, "Incorrect email or password"⟩) ∧
    (∀ email pw u, users.lookup email = some u →
      verify_password pw u.hashed_password = false →
      login email pw st now ts = .error ⟨401, "Incorrect email or password"⟩) ∧
    (∀ email pw e, login email pw st now ts = .error e →
      loginStep email pw st now ts = st) := by
  refine ⟨?_, ?_, ?_⟩
  · intro email pw h; simp [login, h]
  · intro email pw u hu hv; simp [login, hu, hv]
  · intro email pw e hl; simp [loginStep, hl]

/-- Witness for C10 at a concrete input: a login with an unknown email fails
with the uniform 401 error and leaves the initial state unchanged. -/
theorem C10_failed_login_uniform_atomic_witness :
    login "mallory@slalom.com" "password123" initialState 0 "t" =
      .error ⟨401, "Incorrect email or password"⟩ ∧
    loginStep "mallory@slalom.com" "password123" initialState 0 "t" =
      initialState :=
  have h := (C10_failed_login_uniform_atomic initialState 0 "t").1
    "mallory@slalom.com" "password123" (by decide)
  ⟨h, (C10_failed_login_uniform_atomic initialState 0 "t").2.2
    "mallory@slalom.com" "password123" _ h⟩

/-! ### Inversion lemmas for the mutating handlers -/

theorem login_ok_inv {email pw : String} {st : AppState} {now : Nat}
    {ts : String} {resp : TokenResponse} {st' : AppState}
    (h : login email pw st now ts = .ok (resp, st')) :
    ∃ u, users.lookup email = some u ∧
      st' = ⟨st.capabilities,
        st.audit_logs ++ [⟨ts, "login", u.email, "User logged in"⟩]⟩ := by
  cases hl : users.lookup email with
  | none => simp [login, hl] at h
  | some u =>
      cases hv : verify_password pw u.hashed_password with
      | false => simp [login, hl, hv] at h
      | true =>
          simp only [login, hl, hv, if_true, log_action, Except.ok.injEq,
            Prod.mk.injEq] at h
          exact ⟨u, rfl, h.2.symm⟩

theorem register_ok_inv {cn te : String} {u : User} {st : AppState}
    {ts : String} {msg : String} {st' : AppState}
    (h : register_for_capability cn te u st ts = .ok (msg, st')) :
    ∃ cap, st.capabilities.lookup cn = some cap ∧
      ¬(u.role ≠ "admin" ∧ te ≠ u.email) ∧
      te ∉ cap.consultants ∧
      st' = ⟨updateCap st.capabilities cn
          { cap with consultants := cap.consultants ++ [te] },
        st.audit_logs ++ [⟨ts, "register", u.email,
          "Registered " ++ te ++ " for " ++ cn⟩]⟩ := by
  cases hl : st.capabilities.lookup cn with
  | none => simp [register_for_capability, hl] at h
  | some cap =>
      by_cases hcond : u.role ≠ "admin" ∧ te ≠ u.email
      · simp [register_for_capability, hl, hcond] at h
      · by_cases hmem : te ∈ cap.consultants
        · simp [register_for_capability, hl, hcond, hmem] at h
        · simp only [register_for_capability, hl, if_neg hcond, if_neg hmem,
            log_action, Except.ok.injEq, Prod.mk.injEq] at h
          exact ⟨cap, rfl, hcond, hmem, h.2.symm⟩

theorem unregister_ok_inv {cn te : String} {u : User} {st : AppState}
    {ts : String} {msg : String} {st' : AppState}
    (h : unregister_from_capability cn te u st ts = .ok (msg, st')) :
    ∃ cap, st.capabilities.lookup cn = some cap ∧
      te ∈ cap.consultants ∧
      st' = ⟨updateCap st.capabilities cn
          { cap with consultants := cap.consultants.erase te },
        st.audit_logs ++ [⟨ts, "unregister", u.email,
          "Unregistered " ++ te ++ " from " ++ cn⟩]⟩ := by
  cases hl : st.capabilities.lookup cn with
  | none => simp [unregister_from_capability, hl] at h
  | some cap =>
      by_cases hmem : te ∈ cap.consultants
      · simp only [unregister_from_capability, hl,
          if_neg (not_not_intro hmem), log_action, Except.ok.injEq,
          Prod.mk.injEq] at h
        exact ⟨cap, rfl, hmem, h.2.symm⟩
      · simp [unregister_from_capability, hl, hmem] at h

/-- Each pair of the updated capabilities list either carries the new record
or was already in the list. -/
theorem updateCap_mem {caps : List (String × Capability)} {name : String}
    {c : Capability} {p : String × Capability} (hp : p ∈ updateCap caps name c) :
    p.2 = c ∨ p ∈ caps := by
  simp only [updateCap, List.mem_map] at hp
  obtain ⟨q, hq, hfq⟩ := hp
  by_cases h : q.1 = name
  · rw [if_pos h] at hfq; left; rw [← hfq]
  · rw [if_neg h] at hfq; right; rw [← hfq]; exact hq

/-! ### Claim C6 -/

/-- Claim C6: the audit log is append-only — every request either leaves the
log unchanged or appends exactly one entry at its end, never mutating or
removing existing entries, and the admin listing endpoint returns the whole
log in stored (append) order. -/
theorem C6_audit_append_only (st : AppState) :
    (∀ email pw now ts,
      (loginStep email pw st now ts).audit_logs = st.audit_logs ∨
      ∃ a, (loginStep email pw st now ts).audit_logs = st.audit_logs ++ [a]) ∧
    (∀ cn te u ts,
      (registerStep cn te u st ts).audit_logs = st.audit_logs ∨
      ∃ a, (registerStep cn te u st ts).audit_logs = st.audit_logs ++ [a]) ∧
    (∀ cn te u ts,
      (unregisterStep cn te u st ts).audit_logs = st.audit_logs ∨
      ∃ a, (unregisterStep cn te u st ts).audit_logs = st.audit_logs ++ [a]) ∧
    (∀ u, get_audit_logs u st = .ok st.audit_logs ∨
      ∃ e, get_audit_logs u st = .error e) := by
  refine ⟨?_, ?_, ?_, ?_⟩
  · intro email pw now ts
    cases h : login email pw st now ts with
    | error e => exact .inl (by simp [loginStep, h])
    | ok p =>
        obtain ⟨resp, st'⟩ := p
        obtain ⟨u, -, hst⟩ := login_ok_inv h
        exact .inr ⟨⟨ts, "login", u.email, "User logged in"⟩,
          by simp [loginStep, h, hst]⟩
  · intro cn te u ts
    cases h : register_for_capability cn te u st ts with
    | error e => exact .inl (by simp [registerStep, h])
    | ok p =>
        obtain ⟨msg, st'⟩ := p
        obtain ⟨cap, -, -, -, hst⟩ := register_ok_inv h
        exact .inr ⟨⟨ts, "register", u.email,
          "Registered " ++ te ++ " for " ++ cn⟩,
          by simp [registerStep, h, hst]⟩
  · intro cn te u ts
    cases h : unregisterEndpoint cn te u st ts with
    | error e => exact .inl (by simp [unregisterStep, h])
    | ok p =>
        obtain ⟨msg, st'⟩ := p
        have hbody : unregister_from_capability cn te u st ts = .ok (msg, st') := by
          simp only [unregisterEndpoint, require_admin] at h
          by_cases hr : u.role ≠ "admin"
          · rw [if_pos hr] at h; exact absurd h (by simp)
          · rw [if_neg hr] at h; exact h
        obtain ⟨cap, -, -, hst⟩ := unregister_ok_inv hbody
        exact .inr ⟨⟨ts, "unregister", u.email,
          "Unregistered " ++ te ++ " from " ++ cn⟩,
          by simp [unregisterStep, h, hst]⟩
  · intro u
    by_cases hr : u.role ≠ "admin"
    · exact .inr ⟨⟨403, "Admin privileges required"⟩,
        by simp [get_audit_logs, require_admin, hr]⟩
    · exact .inl (by simp [get_audit_logs, require_admin, hr])

/-- Witness for C6 at a concrete input: a concrete register request leaves
the seed audit log either unchanged or extended by exactly one entry. -/
theorem C6_audit_append_only_witness :
    (registerStep "Cloud Architecture" "emma.davis@slalom.com" emma
      initialState "t").audit_logs = initialState.audit_logs ∨
    ∃ a, (registerStep "Cloud Architecture" "emma.davis@slalom.com" emma
      initialState "t").audit_logs = initialState.audit_logs ++ [a] :=
  (C6_audit_append_only initialState).2.1 "Cloud Architecture"
    "emma.davis@slalom.com" emma "t"

/-! ### Claim C8 -/

/-- Claim C8: register and unregister are idempotent-rejecting — immediately
repeating a successful register of the same target into the same capability
fails with Conflict (400), as does immediately repeating a successful
unregister, given duplicate-free rosters. -/
theorem C8_idempotent_rejecting (capName e : String) (u : User) (st : AppState)
    (ts ts2 : String) :
    (∀ msg st', register_for_capability capName e u st ts = .ok (msg, st') →
      register_for_capability capName e u st' ts2 =
        .error ⟨400, "Consultant is already registered for this capability"⟩) ∧
    (∀ msg st', unregister_from_capability capName e u st ts = .ok (msg, st') →
      (∀ cap, st.capabilities.lookup capName = some cap →
        cap.consultants.Nodup) →
      unregister_from_capability capName e u st' ts2 =
        .error ⟨400, "Consultant is not registered for this capability"⟩) := by
  refine ⟨?_, ?_⟩
  · intro msg st' h
    obtain ⟨cap, hl, hcond, hmem, hst⟩ := register_ok_inv h
    subst hst
    simp [register_for_capability, lookup_updateCap _ hl, hcond]
  · intro msg st' h hnd
    obtain ⟨cap, hl, hmem, hst⟩ := unregister_ok_inv h
    subst hst
    have hnodup := hnd cap hl
    simp [unregister_from_capability, lookup_updateCap _ hl,
      hnodup.not_mem_erase]

/-- Witness for C8 at a concrete input: Emma registers herself for
`Cloud Architecture` and the immediate repetition of the same call fails
with the Conflict error. -/
theorem C8_idempotent_rejecting_witness :
    register_for_capability "Cloud Architecture" "emma.davis@slalom.com" emma
      (registerStep "Cloud Architecture" "emma.davis@slalom.com" emma
        initialState "t") "t2" =
      .error ⟨400, "Consultant is already registered for this capability"⟩ :=
  (C8_idempotent_rejecting "Cloud Architecture" "emma.davis@slalom.com" emma
      initialState "t" "t2").1
    ("Registered " ++ "emma.davis@slalom.com" ++ " for " ++ "Cloud Architecture")
    (registerStep "Cloud Architecture" "emma.davis@slalom.com" emma
      initialState "t")
    (by rfl)

/-! ### Claim C9 -/

/-- Claim C9: no capability roster holds a duplicate email — the seed data
satisfies this and every state-changing request (login, register, unregister;
the remaining endpoints are read-only) preserves it. -/
theorem C9_rosters_nodup :
    consultantsNodup initialState ∧
    (∀ st, consultantsNodup st →
      (∀ email pw now ts, consultantsNodup (loginStep email pw st now ts)) ∧
      (∀ cn te u ts, consultantsNodup (registerStep cn te u st ts)) ∧
      (∀ cn te u ts, consultantsNodup (unregisterStep cn te u st ts))) := by
  constructor
  · show ∀ p ∈ initialState.capabilities, p.2.consultants.Nodup
    decide
  · intro st hinv
    refine ⟨?_, ?_, ?_⟩
    · intro email pw now ts
      cases h : login email pw st now ts with
      | error e => simpa [loginStep, h] using hinv
      | ok p =>
          obtain ⟨resp, st'⟩ := p
          obtain ⟨u, -, hst⟩ := login_ok_inv h
          intro q hq
          simp only [loginStep, h, hst] at hq
          exact hinv _ hq
    · intro cn te u ts
      cases h : register_for_capability cn te u st ts with
      | error e => simpa [registerStep, h] using hinv
      | ok p =>
          obtain ⟨msg, st'⟩ := p
          obtain ⟨cap, hl, -, hmem, hst⟩ := register_ok_inv h
          intro q hq
          simp only [registerStep, h, hst] at hq
          rcases updateCap_mem hq with hq2 | hq2
          · rw [hq2]
            have hcapnd : cap.consultants.Nodup := hinv _ (lookup_mem hl)
            simp [List.nodup_append, hcapnd, hmem]
          · exact hinv _ hq2
    · intro cn te u ts
      cases h : unregisterEndpoint cn te u st ts with
      | error e => simpa [unregisterStep, h] using hinv
      | ok p =>
          obtain ⟨msg, st'⟩ := p
          have hbody : unregister_from_capability cn te u st ts =
              .ok (msg, st') := by
            simp only [unregisterEndpoint, require_admin] at h
            by_cases hr : u.role ≠ "admin"
            · rw [if_pos hr] at h; exact absurd h (by simp)
            · rw [if_neg hr] at h; exact h
          obtain ⟨cap, hl, -, hst⟩ := unregister_ok_inv hbody
          intro q hq
          simp only [unregisterStep, h, hst] at hq
          rcases updateCap_mem hq with hq2 | hq2
          · rw [hq2]
            exact (hinv _ (lookup_mem hl)).erase te
          · exact hinv _ hq2

/-- Witness for C9 at a concrete input: the invariant holds of the seed state
and is kept by a concrete successful register. -/
theorem C9_rosters_nodup_witness :
    consultantsNodup (registerStep "Cloud Architecture" "emma.davis@slalom.com"
      emma initialState "t") :=
  ((C9_rosters_nodup.2 initialState C9_rosters_nodup.1).2.1
    "Cloud Architecture" "emma.davis@slalom.com" emma "t")

end Slalom
